import Mathlib

/-!
Verification of the gcloud-buckets-api upload gateway.

The development shallowly embeds the upload pipeline of the repository:

* `isAllowedFileType`, the extension allow-list check in
  `handlers/upload.go` (`filepath.Ext` + `strings.ToLower` + list scan);
* `uploadFile`, the storage delegate in `storage/gcs.go` (object-key
  construction, `io.Copy`, public-URL template), with the wall clock
  (`time.Now().Format("20060102-150405")`) modelled by `formatTimestamp`
  over explicit date/time fields and otherwise passed as a string
  parameter, and the backend writer's possible copy-stage and
  close-stage failures passed as two `Option String`s — the close error
  is discarded, mirroring `defer writer.Close()` in the source;
* `handleUpload`, the HTTP handler in `handlers/upload.go`, as a pure
  function from a request descriptor to an output record (status code,
  CORS headers, JSON envelope, and the number of backend write calls).

Machine integers (`int64` sizes) are modelled as `Int`; byte streams as
`List Nat`.
-/

namespace GcsUpload

/-- `filepath.Ext` from Go's standard library, specialised to the `/`
path separator: scan the path backwards; stop at a separator; at the
first dot return the suffix from that dot on.  `extRevLoop` consumes the
reversed path, carrying the suffix seen so far. -/
def extRevLoop : List Char → List Char → String
  | [], _ => ""
  | c :: rest, acc =>
    if c = '/' then ""
    else if c = '.' then String.mk (c :: acc)
    else extRevLoop rest (c :: acc)

/-- `filepath.Ext filename`: the suffix from the final dot of the final
path element, or `""` when there is none. -/
def filepathExt (path : String) : String :=
  extRevLoop path.data.reverse []

/-- `strings.ToLower` on one character.  Agrees with Go on ASCII, which
covers every allow-list entry. -/
def toLowerChar (c : Char) : Char :=
  if 'A' ≤ c ∧ c ≤ 'Z' then Char.ofNat (c.toNat + 32) else c

/-- `strings.ToLower`, character-wise. -/
def toLower (s : String) : String :=
  String.mk (s.data.map toLowerChar)

/-- The `allowedExtensions` literal of `isAllowedFileType` in
`handlers/upload.go`. -/
def allowedExtensions : List String :=
  [".pdf", ".doc", ".docx", ".txt", ".rtf",
   ".jpg", ".jpeg", ".png", ".gif", ".bmp",
   ".zip", ".rar", ".tar", ".gz",
   ".csv", ".xls", ".xlsx",
   ".ppt", ".pptx"]

/-- `isAllowedFileType` from `handlers/upload.go`: lower-case the
extension of the filename and scan the allow-list for an exact match. -/
def isAllowedFileType (filename : String) : Bool :=
  allowedExtensions.contains (toLower (filepathExt filename))

/-- The spec's reading of the extension of a filename: the trailing
dot-segment, i.e. the suffix from the last dot of the whole filename
(`""` when the filename has no dot).  Differs from `filepathExt` only
when the last dot precedes a `/`. -/
def specExtRevLoop : List Char → List Char → String
  | [], _ => ""
  | c :: rest, acc =>
    if c = '.' then String.mk (c :: acc)
    else specExtRevLoop rest (c :: acc)

/-- The trailing dot-segment of `filename`, per the spec's wording. -/
def specExt (filename : String) : String :=
  specExtRevLoop filename.data.reverse []

/-- The spec's acceptance predicate: the filename's extension, compared
case-insensitively (every allow-list entry is already lower-case), is a
member of the allow-list. -/
def specAccepts (filename : String) : Bool :=
  allowedExtensions.contains (toLower (specExt filename))

/-- `maxSize` from `handlers/upload.go`: `int64(100 << 20)` bytes. -/
def maxSize : Int := 100 * 2 ^ 20

/-- `UploadResult` from `storage/gcs.go`. -/
structure UploadResult where
  fileName : String
  url : String
  size : Int
deriving DecidableEq

/-- The decimal digit character of `n % 10`, as produced by Go's
zero-padded numeric formatting. -/
def digitChar (n : Nat) : Char := Char.ofNat (48 + n % 10)

/-- A two-digit zero-padded field of the Go layout `"01"`/`"02"`/…
(faithful for values below 100, which covers month, day, hour, minute
and second). -/
def pad2 (n : Nat) : List Char := [digitChar (n / 10), digitChar n]

/-- The four-digit zero-padded year field of the Go layout `"2006"`
(faithful for years below 10000). -/
def pad4 (n : Nat) : List Char :=
  [digitChar (n / 1000), digitChar (n / 100), digitChar (n / 10), digitChar n]

/-- `time.Now().Format("20060102-150405")` for the wall-clock instant
with the given year, month, day, hour, minute and second fields. -/
def formatTimestamp (y mo d h mi s : Nat) : String :=
  String.mk (pad4 y ++ pad2 mo ++ pad2 d ++ ['-'] ++ pad2 h ++ pad2 mi ++ pad2 s)

/-- `io.Copy(writer, reader)` in `UploadFile`: a failure of the backend
writer at the copy stage comes back as the error; otherwise every byte
of the stream is buffered or sent and the byte count returned. -/
def ioCopy (writerErr : Option String) (content : List Nat) : Except String Int :=
  match writerErr with
  | some e => Except.error e
  | none => Except.ok (content.length : Int)

/-- `UploadFile` from `storage/gcs.go`: build the object name
`"{timestamp}-{fileName}"`, copy the stream to the backend writer, and
on success return the object name, the public URL
`https://storage.googleapis.com/{bucket}/{objectName}` and the byte
count; a copy error is wrapped as `failed to upload file: ...`.
The writer is closed by `defer writer.Close()` (gcs.go:55) and the
error of that close — the commit step, modelled by `closeErr` — is
discarded by the source, so it cannot influence the returned value:
a backend failure at commit still yields a success result. -/
def uploadFile (bucketName timestamp fileName : String)
    (writerErr closeErr : Option String) (content : List Nat) : Except String UploadResult :=
  let objectName := timestamp ++ "-" ++ fileName
  match ioCopy writerErr content with
  | Except.error e => Except.error ("failed to upload file: " ++ e)
  | Except.ok size =>
      Except.ok
        { fileName := objectName
          url := "https://storage.googleapis.com/" ++ bucketName ++ "/" ++ objectName
          size := size }

/-- The `Response` JSON envelope of `handlers/upload.go`: `data` is the
`omitempty` interface field (absent = `none`), `error` the `omitempty`
string field (absent = `""`). -/
structure Response where
  success : Bool
  data : Option UploadResult
  error : String
deriving DecidableEq

/-- The multipart file part delivered by `r.FormFile("file")`: the
header's filename and declared size, and the byte stream. -/
structure MultipartFile where
  filename : String
  size : Int
  content : List Nat
deriving DecidableEq

/-- An inbound HTTP request as `HandleUpload` observes it: the method
string, whether `ParseMultipartForm` succeeds, and the result of
`FormFile("file")` (`none` = missing field or error). -/
structure Request where
  method : String
  parseOk : Bool
  formFile : Option MultipartFile
deriving DecidableEq

/-- Everything `HandleUpload` writes to the `ResponseWriter`, plus an
instrumentation counter for calls to `storageClient.UploadFile`. -/
structure HandlerOutput where
  corsOrigin : String
  corsMethods : String
  corsHeaders : String
  status : Nat
  body : Option Response
  backendCalls : Nat
deriving DecidableEq

/-- The OPTIONS preflight output: CORS headers, status 200, no body. -/
def optionsOut : HandlerOutput :=
  { corsOrigin := "*", corsMethods := "POST, OPTIONS", corsHeaders := "Content-Type"
    status := 200, body := none, backendCalls := 0 }

/-- `sendErrorResponse`: an envelope with `success:false` and the
message in `error`, written with the given status code. -/
def errorOut (msg : String) (status : Nat) (calls : Nat) : HandlerOutput :=
  { corsOrigin := "*", corsMethods := "POST, OPTIONS", corsHeaders := "Content-Type"
    status := status, body := some { success := false, data := none, error := msg }
    backendCalls := calls }

/-- `sendSuccessResponse`: an envelope with `success:true` and the
`UploadResult` in `data`, written with the implicit status 200. -/
def successOut (res : UploadResult) (calls : Nat) : HandlerOutput :=
  { corsOrigin := "*", corsMethods := "POST, OPTIONS", corsHeaders := "Content-Type"
    status := 200, body := some { success := true, data := some res, error := "" }
    backendCalls := calls }

/-- `HandleUpload` from `handlers/upload.go`, branch for branch: CORS
headers, OPTIONS preflight, method check, multipart parse, file field,
the three validation checks in source order, then the single delegated
`UploadFile` call. -/
def handleUpload (bucketName timestamp : String) (writerErr closeErr : Option String)
    (r : Request) : HandlerOutput :=
  if r.method = "OPTIONS" then optionsOut
  else if r.method ≠ "POST" then errorOut ("Method not allowed") 405 0
  else if r.parseOk = false then errorOut ("Failed to parse multipart form") 400 0
  else
    match r.formFile with
    | none => errorOut ("No file provided or invalid file field") 400 0
    | some f =>
      if f.size = 0 then errorOut ("Empty file not allowed") 400 0
      else if f.size > maxSize then errorOut ("File too large (max 100MB)") 400 0
      else if isAllowedFileType f.filename = false then
        errorOut ("File type not allowed") 400 0
      else
        match uploadFile bucketName timestamp f.filename writerErr closeErr f.content with
        | Except.error e => errorOut ("Upload failed: " ++ e) 500 1
        | Except.ok res => successOut res 1

/-- The spec's notion of a validated request: POST method, well-formed
multipart body, a `file` field present, and the three checks of the
Validator all passing. -/
def validationPasses (r : Request) : Bool :=
  r.method == "POST" && r.parseOk &&
    (match r.formFile with
     | none => false
     | some f =>
       !(f.size == 0) && !(decide (f.size > maxSize)) && isAllowedFileType f.filename)

/-! ### Helper lemmas -/

/-- A string with a nonempty left part of an append is nonempty. -/
lemma append_ne_empty (s t : String) (h : s.length ≠ 0) : s ++ t ≠ "" := by
  intro he
  have hl := congrArg String.length he
  rw [String.length_append, String.length_empty] at hl
  omega

/-- Reduction of `uploadFile` when the backend writer succeeds. -/
lemma uploadFile_ok (bucket ts f : String) (ce : Option String) (content : List Nat) :
    uploadFile bucket ts f none ce content =
      Except.ok
        { fileName := ts ++ "-" ++ f
          url := "https://storage.googleapis.com/" ++ bucket ++ "/" ++ (ts ++ "-" ++ f)
          size := (content.length : Int) } := rfl

/-- Reduction of `uploadFile` when the backend writer fails. -/
lemma uploadFile_err (bucket ts f e : String) (ce : Option String) (content : List Nat) :
    uploadFile bucket ts f (some e) ce content =
      Except.error ("failed to upload file: " ++ e) := rfl

/-- A validated request reaches the single `UploadFile` call site. -/
lemma handleUpload_validated (bucket ts : String) (we ce : Option String)
    (r : Request) (f : MultipartFile)
    (hm : r.method = "POST") (hp : r.parseOk = true) (hf : r.formFile = some f)
    (h0 : ¬ f.size = 0) (hmax : ¬ f.size > maxSize)
    (hext : isAllowedFileType f.filename = true) :
    handleUpload bucket ts we ce r =
      match uploadFile bucket ts f.filename we ce f.content with
      | Except.error e => errorOut ("Upload failed: " ++ e) 500 1
      | Except.ok res => successOut res 1 := by
  rcases r with ⟨m, p, ff⟩
  simp only at hm hp hf
  subst hm hp hf
  simp [handleUpload, h0, hmax, hext]

/-- No allow-list entry contains a path separator. -/
lemma slash_not_allowed (s : String) (h : '/' ∈ s.data) :
    allowedExtensions.contains s = false := by
  by_contra hc
  rw [Bool.not_eq_false] at hc
  simp only [allowedExtensions, List.contains_cons, List.contains_nil,
    Bool.or_eq_true, beq_iff_eq] at hc
  rcases hc with rfl | rfl | rfl | rfl | rfl | rfl | rfl | rfl | rfl | rfl |
    rfl | rfl | rfl | rfl | rfl | rfl | rfl | rfl | rfl | hc
  all_goals first
    | exact absurd h (by decide)
    | exact absurd hc (by decide)

/-- Once the scan of the spec's extension has passed a separator, its
result is empty or still contains that separator. -/
lemma specExtRevLoop_slash (l : List Char) :
    ∀ acc, '/' ∈ acc →
      specExtRevLoop l acc = "" ∨ '/' ∈ (specExtRevLoop l acc).data := by
  induction l with
  | nil => exact fun acc _ => Or.inl rfl
  | cons c rest ih =>
    intro acc h
    by_cases hd : c = '.'
    · subst hd
      simp only [specExtRevLoop, if_pos rfl]
      exact Or.inr (List.mem_cons_of_mem _ h)
    · simp only [specExtRevLoop, if_neg hd]
      exact ih _ (List.mem_cons_of_mem _ h)

/-- Lower-casing keeps a path separator in place. -/
lemma slash_mem_toLower (s : String) (h : '/' ∈ s.data) :
    '/' ∈ (toLower s).data := by
  have h2 : toLowerChar '/' = '/' := by decide
  have h3 := List.mem_map_of_mem toLowerChar h
  rw [h2] at h3
  simpa [toLower] using h3

/-- Head reduction of `extRevLoop` at a separator. -/
lemma extRevLoop_sep (rest acc : List Char) : extRevLoop ('/' :: rest) acc = "" := rfl

/-- Head reduction of `extRevLoop` at a dot. -/
lemma extRevLoop_dot (rest acc : List Char) :
    extRevLoop ('.' :: rest) acc = String.mk ('.' :: acc) := rfl

/-- Head reduction of `extRevLoop` at an ordinary character. -/
lemma extRevLoop_other (c : Char) (rest acc : List Char)
    (hs : ¬ c = '/') (hd : ¬ c = '.') :
    extRevLoop (c :: rest) acc = extRevLoop rest (c :: acc) := by
  simp [extRevLoop, hs, hd]

/-- Head reduction of `specExtRevLoop` at a separator. -/
lemma specExtRevLoop_sep (rest acc : List Char) :
    specExtRevLoop ('/' :: rest) acc = specExtRevLoop rest ('/' :: acc) := rfl

/-- Head reduction of `specExtRevLoop` at a dot. -/
lemma specExtRevLoop_dot (rest acc : List Char) :
    specExtRevLoop ('.' :: rest) acc = String.mk ('.' :: acc) := rfl

/-- Head reduction of `specExtRevLoop` at an ordinary character. -/
lemma specExtRevLoop_other (c : Char) (rest acc : List Char) (hd : ¬ c = '.') :
    specExtRevLoop (c :: rest) acc = specExtRevLoop rest (c :: acc) := by
  simp [specExtRevLoop, hd]

/-- The allow-list verdict is the same whether the extension scan stops
at a path separator (`filepath.Ext`) or runs through the whole filename
(the spec's trailing dot-segment): an extension reaching over a
separator can never match an allow-list entry. -/
lemma contains_ext_loop_eq (l : List Char) :
    ∀ acc, allowedExtensions.contains (toLower (extRevLoop l acc)) =
      allowedExtensions.contains (toLower (specExtRevLoop l acc)) := by
  induction l with
  | nil => exact fun _ => rfl
  | cons c rest ih =>
    intro acc
    by_cases hs : c = '/'
    · subst hs
      rw [extRevLoop_sep, specExtRevLoop_sep]
      rcases specExtRevLoop_slash rest ('/' :: acc) (List.mem_cons_self _ _) with he | hm
      · rw [he]
      · have hz := slash_not_allowed _ (slash_mem_toLower _ hm)
        rw [hz]
        decide
    · by_cases hd : c = '.'
      · subst hd
        rw [extRevLoop_dot, specExtRevLoop_dot]
      · rw [extRevLoop_other c rest acc hs hd, specExtRevLoop_other c rest acc hd]
        exact ih _

/-! ### Claim theorems -/

/-- Claim C1: for every upload request with a file field, the validator
applies the empty-file check, then the size-limit check, then the
extension check, the first failure winning and no further check running;
every rejection is classified as HTTP 400 (and performs no backend
call). -/
theorem validation_checks_order (bucket ts : String) (we ce : Option String)
    (r : Request) (f : MultipartFile)
    (hm : r.method = "POST") (hp : r.parseOk = true) (hf : r.formFile = some f) :
    (f.size = 0 →
      handleUpload bucket ts we ce r = errorOut ("Empty file not allowed") 400 0) ∧
    (¬ f.size = 0 → f.size > maxSize →
      handleUpload bucket ts we ce r = errorOut ("File too large (max 100MB)") 400 0) ∧
    (¬ f.size = 0 → ¬ f.size > maxSize → isAllowedFileType f.filename = false →
      handleUpload bucket ts we ce r = errorOut ("File type not allowed") 400 0) := by
  rcases r with ⟨m, p, ff⟩
  simp only at hm hp hf
  subst hm hp hf
  refine ⟨fun h0 => ?_, fun h0 hmax => ?_, fun h0 hmax hext => ?_⟩
  · simp [handleUpload, h0]
  · simp [handleUpload, h0, hmax]
  · simp [handleUpload, h0, hmax, hext]

/-- Witness for C1: each of the three rejections at a concrete request. -/
theorem validation_checks_order_witness :
    handleUpload ("b") ("ts") none none
      { method := "POST", parseOk := true
        formFile := some { filename := "a.txt", size := 0, content := [] } } =
      errorOut ("Empty file not allowed") 400 0 ∧
    handleUpload ("b") ("ts") none none
      { method := "POST", parseOk := true
        formFile := some { filename := "a.exe", size := 104857601, content := [] } } =
      errorOut ("File too large (max 100MB)") 400 0 ∧
    handleUpload ("b") ("ts") none none
      { method := "POST", parseOk := true
        formFile := some { filename := "a.exe", size := 5, content := [] } } =
      errorOut ("File type not allowed") 400 0 := by
  refine ⟨?_, ?_, ?_⟩
  · exact (validation_checks_order ("b") ("ts") none none _ _ rfl rfl rfl).1 rfl
  · exact (validation_checks_order ("b") ("ts") none none _ _ rfl rfl rfl).2.1
      (by decide) (by decide)
  · exact (validation_checks_order ("b") ("ts") none none _ _ rfl rfl rfl).2.2
      (by decide) (by decide) (by decide)

/-- On the one backend failure path the source does surface — an
`io.Copy` error — the handler answers 500 with `Upload failed: ` plus
the backend detail and no `UploadResult` (the envelope of `errorOut`
carries `data := none`).  The close/commit failure path behaves
differently: see `close_error_partial_success`. -/
theorem copy_error_maps_500 (bucket ts e : String) (ce : Option String)
    (r : Request) (f : MultipartFile)
    (hm : r.method = "POST") (hp : r.parseOk = true) (hf : r.formFile = some f)
    (h0 : ¬ f.size = 0) (hmax : ¬ f.size > maxSize)
    (hext : isAllowedFileType f.filename = true) :
    handleUpload bucket ts (some e) ce r =
      errorOut ("Upload failed: " ++ ("failed to upload file: " ++ e)) 500 1 ∧
    (handleUpload bucket ts (some e) ce r).body =
      some { success := false, data := none
             error := "Upload failed: " ++ ("failed to upload file: " ++ e) } := by
  have h := handleUpload_validated bucket ts (some e) ce r f hm hp hf h0 hmax hext
  rw [uploadFile_err] at h
  exact ⟨h, by rw [h]; rfl⟩

/-- The copy-stage failure at a concrete validated request. -/
theorem copy_error_maps_500_witness :
    handleUpload ("b") ("ts") (some ("boom")) none
      { method := "POST", parseOk := true
        formFile := some { filename := "a.txt", size := 3, content := [1, 2, 3] } } =
      errorOut ("Upload failed: " ++ ("failed to upload file: " ++ "boom")) 500 1 :=
  (copy_error_maps_500 ("b") ("ts") ("boom") none _ _ rfl rfl rfl
    (by decide) (by decide) (by decide)).1

/-- Claim C2, evaluated at the failing input (the claim is contradicted
by the source): `UploadFile` closes the backend writer with
`defer writer.Close()` (gcs.go:55), discarding the close error — and
the close is the commit step, where the GCS SDK surfaces most failures
for content below the writer's chunk size, since `Write`/`io.Copy` only
buffer such content.  At a validated 3-byte upload whose backend fails
at close (for example a missing bucket), the handler therefore returns
200 with a success envelope carrying a URL for an object that was never
committed, instead of the claimed 500 `Upload failed: ` error: a
partial-success outcome the claim says cannot exist. -/
theorem close_error_partial_success :
    handleUpload ("b") ("20250101-120000") none
      (some ("googleapi: Error 404: bucket does not exist"))
      { method := "POST", parseOk := true
        formFile := some { filename := "a.txt", size := 3, content := [1, 2, 3] } } =
      successOut
        { fileName := "20250101-120000" ++ "-" ++ "a.txt"
          url := "https://storage.googleapis.com/" ++ "b" ++ "/" ++
            ("20250101-120000" ++ "-" ++ "a.txt")
          size := 3 } 1 := rfl

/-- Claim C5: for every validated upload with a healthy backend, the
reported size in the `UploadResult` equals the number of bytes in the
input stream, whatever the declared size `f.size` of the request was. -/
theorem reported_size_is_stream_length (bucket ts : String)
    (ce : Option String) (r : Request) (f : MultipartFile)
    (hm : r.method = "POST") (hp : r.parseOk = true) (hf : r.formFile = some f)
    (h0 : ¬ f.size = 0) (hmax : ¬ f.size > maxSize)
    (hext : isAllowedFileType f.filename = true) :
    (handleUpload bucket ts none ce r).body =
      some { success := true
             data := some
               { fileName := ts ++ "-" ++ f.filename
                 url := "https://storage.googleapis.com/" ++ bucket ++ "/" ++
                   (ts ++ "-" ++ f.filename)
                 size := (f.content.length : Int) }
             error := "" } := by
  have h := handleUpload_validated bucket ts none ce r f hm hp hf h0 hmax hext
  rw [uploadFile_ok] at h
  rw [h]; rfl

/-- Witness for C5: declared size 999, stream of 3 bytes, reported size 3. -/
theorem reported_size_is_stream_length_witness :
    (handleUpload ("b") ("ts") none none
      { method := "POST", parseOk := true
        formFile := some { filename := "a.txt", size := 999, content := [7, 8, 9] } }).body =
      some { success := true
             data := some
               { fileName := "ts" ++ "-" ++ "a.txt"
                 url := "https://storage.googleapis.com/" ++ "b" ++ "/" ++
                   ("ts" ++ "-" ++ "a.txt")
                 size := (([7, 8, 9] : List Nat).length : Int) }
             error := "" } :=
  reported_size_is_stream_length ("b") ("ts") none _ _ rfl rfl rfl
    (by decide) (by decide) (by decide)

/-- Claim C7: every successful `UploadFile` reports the public URL
`https://storage.googleapis.com/{bucket}/{objectKey}` with the object
key spliced in verbatim, no URL-encoding applied. -/
theorem public_url_template (bucket ts f : String) (we ce : Option String)
    (content : List Nat) (res : UploadResult)
    (h : uploadFile bucket ts f we ce content = Except.ok res) :
    res.url = "https://storage.googleapis.com/" ++ bucket ++ "/" ++ (ts ++ "-" ++ f) := by
  cases we with
  | none =>
    rw [uploadFile_ok] at h
    cases h
    rfl
  | some e =>
    rw [uploadFile_err] at h
    cases h

/-- Witness for C7 at a filename containing characters a URL-encoder
would escape. -/
theorem public_url_template_witness :
    ({ fileName := "ts-a b?.pdf", url := "https://storage.googleapis.com/b/ts-a b?.pdf"
       size := 1 } : UploadResult).url =
      "https://storage.googleapis.com/" ++ "b" ++ "/" ++ ("ts" ++ "-" ++ "a b?.pdf") :=
  public_url_template ("b") ("ts") ("a b?.pdf") none none [1]
    { fileName := "ts-a b?.pdf", url := "https://storage.googleapis.com/b/ts-a b?.pdf"
      size := 1 } (by rfl)

/-- Claim C9: an OPTIONS request returns 200 with an empty body and the
three CORS headers; any method other than POST and OPTIONS returns 405
with the message surfaced verbatim in the error field. -/
theorem preflight_and_method_check (bucket ts : String) (we ce : Option String)
    (r : Request) :
    (r.method = "OPTIONS" →
      handleUpload bucket ts we ce r =
        { corsOrigin := "*", corsMethods := "POST, OPTIONS"
          corsHeaders := "Content-Type", status := 200, body := none
          backendCalls := 0 }) ∧
    (¬ r.method = "OPTIONS" → ¬ r.method = "POST" →
      handleUpload bucket ts we ce r = errorOut ("Method not allowed") 405 0) := by
  refine ⟨fun h => ?_, fun h1 h2 => ?_⟩
  · simp [handleUpload, h, optionsOut]
  · simp [handleUpload, h1, h2]

/-- Witness for C9: an OPTIONS preflight and a GET request. -/
theorem preflight_and_method_check_witness :
    handleUpload ("b") ("ts") none none
      { method := "OPTIONS", parseOk := true, formFile := none } =
      { corsOrigin := "*", corsMethods := "POST, OPTIONS"
        corsHeaders := "Content-Type", status := 200, body := none
        backendCalls := 0 } ∧
    handleUpload ("b") ("ts") none none
      { method := "GET", parseOk := true, formFile := none } =
      errorOut ("Method not allowed") 405 0 :=
  ⟨(preflight_and_method_check ("b") ("ts") none none _).1 rfl,
   (preflight_and_method_check ("b") ("ts") none none _).2 (by decide) (by decide)⟩

/-- Claim C10: a strictly negative declared size passes both the
empty-file check (which rejects only 0) and the size-limit check (which
rejects only sizes above the maximum), so with an allowed extension the
backend upload is invoked; with a healthy backend the request succeeds
with status 200. -/
theorem negative_size_accepted (bucket ts : String) (we ce : Option String)
    (r : Request) (f : MultipartFile)
    (hm : r.method = "POST") (hp : r.parseOk = true) (hf : r.formFile = some f)
    (hneg : f.size < 0) (hext : isAllowedFileType f.filename = true) :
    (handleUpload bucket ts we ce r).backendCalls = 1 ∧
    (handleUpload bucket ts none ce r).status = 200 := by
  have h0 : ¬ f.size = 0 := by omega
  have hM : (0 : Int) < maxSize := by norm_num [maxSize]
  have hmax : ¬ f.size > maxSize := by omega
  constructor
  · have h := handleUpload_validated bucket ts we ce r f hm hp hf h0 hmax hext
    rw [h]
    cases we with
    | none => rw [uploadFile_ok]; rfl
    | some e => rw [uploadFile_err]; rfl
  · have h := handleUpload_validated bucket ts none ce r f hm hp hf h0 hmax hext
    rw [uploadFile_ok] at h
    rw [h]; rfl

/-- Witness for C10: declared size -5 with an allowed extension. -/
theorem negative_size_accepted_witness :
    (handleUpload ("b") ("ts") none none
      { method := "POST", parseOk := true
        formFile := some { filename := "a.pdf", size := -5, content := [1] } }).backendCalls = 1 ∧
    (handleUpload ("b") ("ts") none none
      { method := "POST", parseOk := true
        formFile := some { filename := "a.pdf", size := -5, content := [1] } }).status = 200 :=
  negative_size_accepted ("b") ("ts") none none _ _ rfl rfl rfl (by decide) (by decide)

/-- Claim C8: the backend upload is invoked exactly once when the
request is a well-formed POST whose three validation checks pass, and
zero times otherwise. -/
theorem backend_called_iff_validated (bucket ts : String) (we ce : Option String)
    (r : Request) :
    (handleUpload bucket ts we ce r).backendCalls =
      if validationPasses r then 1 else 0 := by
  rcases r with ⟨m, p, ff⟩
  by_cases hopt : m = "OPTIONS"
  · subst hopt
    simp [handleUpload, validationPasses, optionsOut]
  · by_cases hpost : m = "POST"
    · subst hpost
      cases p with
      | false => simp [handleUpload, validationPasses, errorOut]
      | true =>
        cases ff with
        | none => simp [handleUpload, validationPasses, errorOut]
        | some f =>
          by_cases h0 : f.size = 0
          · simp [handleUpload, validationPasses, errorOut, h0]
          · by_cases hmax : f.size > maxSize
            · simp [handleUpload, validationPasses, errorOut, h0, hmax]
            · cases hext : isAllowedFileType f.filename with
              | false => simp [handleUpload, validationPasses, errorOut, h0, hmax, hext]
              | true =>
                cases huf : uploadFile bucket ts f.filename we ce f.content with
                | error e =>
                  simp [handleUpload, validationPasses, errorOut, h0, hmax, hext, huf]
                | ok res =>
                  simp [handleUpload, validationPasses, successOut, h0, hmax, hext, huf]
    · simp [handleUpload, validationPasses, errorOut, hopt, hpost]

/-- Claim C6: every envelope emitted by the handler has `success = true`
exactly when `data` is populated and `error` is absent, and
`success = false` exactly when `error` is populated and `data` absent;
no envelope has both or neither. -/
theorem envelope_invariant (bucket ts : String) (we ce : Option String)
    (r : Request) (resp : Response)
    (h : (handleUpload bucket ts we ce r).body = some resp) :
    (resp.success = true ↔ resp.data ≠ none ∧ resp.error = "") ∧
    (resp.success = false ↔ resp.data = none ∧ resp.error ≠ "") := by
  have key : (handleUpload bucket ts we ce r).body = none ∨
      (∃ msg, msg ≠ "" ∧ (handleUpload bucket ts we ce r).body =
        some { success := false, data := none, error := msg }) ∨
      (∃ res, (handleUpload bucket ts we ce r).body =
        some { success := true, data := some res, error := "" }) := by
    unfold handleUpload
    repeat' split
    all_goals first
      | exact Or.inl rfl
      | exact Or.inr (Or.inr ⟨_, rfl⟩)
      | exact Or.inr (Or.inl ⟨_, by decide, rfl⟩)
      | exact Or.inr (Or.inl ⟨_, append_ne_empty ("Upload failed: ") _ (by decide), rfl⟩)
  rcases key with hk | ⟨msg, hmsg, hk⟩ | ⟨res, hk⟩
  · rw [hk] at h
    cases h
  · rw [hk] at h
    injection h with h2
    subst h2
    simp [hmsg]
  · rw [hk] at h
    injection h with h2
    subst h2
    simp

/-- Witness for C6: the envelope of a rejected GET request. -/
theorem envelope_invariant_witness :
    (({ success := false, data := none, error := "Method not allowed" } : Response).success = true ↔
      ({ success := false, data := none, error := "Method not allowed" } : Response).data ≠ none ∧
      ({ success := false, data := none, error := "Method not allowed" } : Response).error = "") ∧
    (({ success := false, data := none, error := "Method not allowed" } : Response).success = false ↔
      ({ success := false, data := none, error := "Method not allowed" } : Response).data = none ∧
      ({ success := false, data := none, error := "Method not allowed" } : Response).error ≠ "") :=
  envelope_invariant ("b") ("ts") none none
    { method := "GET", parseOk := true, formFile := none } _ rfl

/-- Claim C3: the validator accepts exactly when the filename's
extension (its trailing dot-segment, leading dot included), compared
case-insensitively, is one of the 19 allow-list entries; a filename
without an extension and the empty filename are rejected, and an
uppercase variant such as `.PDF` is accepted. -/
theorem allowlist_characterisation :
    (∀ filename : String, isAllowedFileType filename = specAccepts filename) ∧
    isAllowedFileType ("") = false ∧
    isAllowedFileType ("test") = false ∧
    isAllowedFileType ("test.PDF") = true := by
  refine ⟨fun filename => ?_, by decide, by decide, by decide⟩
  unfold isAllowedFileType specAccepts filepathExt specExt
  exact contains_ext_loop_eq _ _

/-- Equal digit characters come from equal digits. -/
lemma digitChar_fin_inj : ∀ a b : Fin 10,
    Char.ofNat (48 + a.val) = Char.ofNat (48 + b.val) → a = b := by decide

/-- `digitChar` determines its argument modulo 10. -/
lemma digitChar_inj (x y : Nat) (h : digitChar x = digitChar y) :
    x % 10 = y % 10 := by
  have hx : x % 10 < 10 := Nat.mod_lt x (by norm_num)
  have hy : y % 10 < 10 := Nat.mod_lt y (by norm_num)
  have h2 := digitChar_fin_inj ⟨x % 10, hx⟩ ⟨y % 10, hy⟩ h
  exact congrArg Fin.val h2

/-- `pad2` is injective on values below 100. -/
lemma pad2_inj (a b : Nat) (ha : a < 100) (hb : b < 100) (h : pad2 a = pad2 b) :
    a = b := by
  simp only [pad2, List.cons.injEq, and_true] at h
  obtain ⟨h1, h2⟩ := h
  have e1 := digitChar_inj _ _ h1
  have e2 := digitChar_inj _ _ h2
  omega

/-- `pad4` is injective on values below 10000. -/
lemma pad4_inj (a b : Nat) (ha : a < 10000) (hb : b < 10000) (h : pad4 a = pad4 b) :
    a = b := by
  simp only [pad4, List.cons.injEq, and_true] at h
  obtain ⟨h1, h2, h3, h4⟩ := h
  have e1 := digitChar_inj _ _ h1
  have e2 := digitChar_inj _ _ h2
  have e3 := digitChar_inj _ _ h3
  have e4 := digitChar_inj _ _ h4
  omega

/-- The character list under a formatted timestamp, with the
fixed-width fields split off the front. -/
lemma formatTimestamp_data (y mo d h mi s : Nat) :
    (formatTimestamp y mo d h mi s).data =
      pad4 y ++ (pad2 mo ++ (pad2 d ++ (['-'] ++ (pad2 h ++ (pad2 mi ++ pad2 s))))) := by
  simp [formatTimestamp, List.append_assoc]

/-- `pad2` always produces two characters. -/
lemma pad2_length (n : Nat) : (pad2 n).length = 2 := rfl

/-- `pad4` always produces four characters. -/
lemma pad4_length (n : Nat) : (pad4 n).length = 4 := rfl

/-- Distinct wall-clock seconds format to distinct `YYYYMMDD-HHMMSS`
strings (fields in their Go-format ranges). -/
lemma formatTimestamp_inj
    (y mo d hr mi se y2 mo2 d2 hr2 mi2 se2 : Nat)
    (hy : y < 10000) (hy2 : y2 < 10000)
    (hmo : mo < 100) (hmo2 : mo2 < 100) (hd : d < 100) (hd2 : d2 < 100)
    (hhr : hr < 100) (hhr2 : hr2 < 100) (hmi : mi < 100) (hmi2 : mi2 < 100)
    (hse : se < 100) (hse2 : se2 < 100)
    (heq : formatTimestamp y mo d hr mi se = formatTimestamp y2 mo2 d2 hr2 mi2 se2) :
    y = y2 ∧ mo = mo2 ∧ d = d2 ∧ hr = hr2 ∧ mi = mi2 ∧ se = se2 := by
  have hdata := congrArg String.data heq
  rw [formatTimestamp_data, formatTimestamp_data] at hdata
  obtain ⟨q1, hdata⟩ := List.append_inj hdata (by rw [pad4_length, pad4_length])
  obtain ⟨q2, hdata⟩ := List.append_inj hdata (by rw [pad2_length, pad2_length])
  obtain ⟨q3, hdata⟩ := List.append_inj hdata (by rw [pad2_length, pad2_length])
  obtain ⟨-, hdata⟩ := List.append_inj hdata rfl
  obtain ⟨q4, hdata⟩ := List.append_inj hdata (by rw [pad2_length, pad2_length])
  obtain ⟨q5, q6⟩ := List.append_inj hdata (by rw [pad2_length, pad2_length])
  exact ⟨pad4_inj _ _ hy hy2 q1, pad2_inj _ _ hmo hmo2 q2, pad2_inj _ _ hd hd2 q3,
    pad2_inj _ _ hhr hhr2 q4, pad2_inj _ _ hmi hmi2 q5, pad2_inj _ _ hse hse2 q6⟩

/-- Appending the same `-{filename}` tail to equal-length timestamps
preserves distinctness of the object keys. -/
lemma object_key_inj (t1 t2 f : String) (hl : t1.data.length = t2.data.length)
    (h : t1 ++ "-" ++ f = t2 ++ "-" ++ f) : t1 = t2 := by
  have hd := congrArg String.data h
  simp only [String.data_append] at hd
  rw [List.append_assoc, List.append_assoc] at hd
  exact String.ext (List.append_inj hd hl).1

/-- Claim C4: for every successful upload, the object key is the
wall-clock timestamp formatted `YYYYMMDD-HHMMSS`, a hyphen, and the
original filename verbatim; two uploads of the same filename in
different seconds produce different object keys. -/
theorem object_key_format (bucket f : String) (ce : Option String) (content : List Nat)
    (y mo d hr mi se y2 mo2 d2 hr2 mi2 se2 : Nat)
    (hy : y < 10000) (hmo : mo < 100) (hd : d < 100) (hhr : hr < 100)
    (hmi : mi < 100) (hse : se < 100)
    (hy2 : y2 < 10000) (hmo2 : mo2 < 100) (hd2 : d2 < 100) (hhr2 : hr2 < 100)
    (hmi2 : mi2 < 100) (hse2 : se2 < 100)
    (hne : ¬ (y = y2 ∧ mo = mo2 ∧ d = d2 ∧ hr = hr2 ∧ mi = mi2 ∧ se = se2)) :
    uploadFile bucket (formatTimestamp y mo d hr mi se) f none ce content =
      Except.ok
        { fileName := formatTimestamp y mo d hr mi se ++ "-" ++ f
          url := "https://storage.googleapis.com/" ++ bucket ++ "/" ++
            (formatTimestamp y mo d hr mi se ++ "-" ++ f)
          size := (content.length : Int) } ∧
    formatTimestamp y mo d hr mi se ++ "-" ++ f ≠
      formatTimestamp y2 mo2 d2 hr2 mi2 se2 ++ "-" ++ f := by
  constructor
  · exact uploadFile_ok bucket (formatTimestamp y mo d hr mi se) f ce content
  · intro hkey
    apply hne
    have hts := object_key_inj _ _ f
      (by rw [formatTimestamp_data, formatTimestamp_data]; simp [pad2, pad4]) hkey
    exact formatTimestamp_inj y mo d hr mi se y2 mo2 d2 hr2 mi2 se2
      hy hy2 hmo hmo2 hd hd2 hhr hhr2 hmi hmi2 hse hse2 hts

/-- Witness for C4: the same filename one second apart. -/
theorem object_key_format_witness :
    uploadFile ("b") (formatTimestamp 2025 10 11 12 0 0) ("a.pdf") none none [1, 2] =
      Except.ok
        { fileName := formatTimestamp 2025 10 11 12 0 0 ++ "-" ++ "a.pdf"
          url := "https://storage.googleapis.com/" ++ "b" ++ "/" ++
            (formatTimestamp 2025 10 11 12 0 0 ++ "-" ++ "a.pdf")
          size := ((2 : Nat) : Int) }  ∧
    formatTimestamp 2025 10 11 12 0 0 ++ "-" ++ "a.pdf" ≠
      formatTimestamp 2025 10 11 12 0 1 ++ "-" ++ "a.pdf" :=
  object_key_format ("b") ("a.pdf") none [1, 2] 2025 10 11 12 0 0 2025 10 11 12 0 1
    (by decide) (by decide) (by decide) (by decide) (by decide) (by decide)
    (by decide) (by decide) (by decide) (by decide) (by decide) (by decide)
    (by decide)

end GcsUpload
